import Mathlib

set_option maxRecDepth 2000000

/-!
Verification of the indumi natural-language calculator core.

The numeric domain of the Rust program is `f64`; the model uses `ℚ`, which is
exact on every decimal literal and on the arithmetic the claims exercise
(sums, differences, products, quotients of decimal inputs).  String handling is
modelled on `List Char` with ASCII case maps, matching the program's inputs.
-/

namespace Indumi

/-- Environment of the calculator: models `HashMap<String, f64>` observationally.
Insertion is modelled by consing, lookup by first match, which gives the same
lookup semantics as `HashMap::insert` / `HashMap::get`. -/
abbrev Env := List (String × ℚ)

/-- Rate table of `CurrencyConverter`: models `HashMap<String, f64>`. -/
abbrev Rates := List (String × ℚ)

/-- Lookup by first match; models `HashMap::get`. -/
def lookupTable : List (String × ℚ) → String → Option ℚ
  | [], _ => none
  | (k, v) :: rest, name => if k = name then some v else lookupTable rest name

/-- ASCII lower-casing of one character; models the effect of
`str::to_lowercase` on the program's tokens (non-ASCII characters, such as the
currency symbols, are untouched). -/
def charToLower (c : Char) : Char :=
  if 65 ≤ c.toNat ∧ c.toNat ≤ 90 then Char.ofNat (c.toNat + 32) else c

/-- ASCII upper-casing of one character; models `str::to_uppercase` likewise. -/
def charToUpper (c : Char) : Char :=
  if 97 ≤ c.toNat ∧ c.toNat ≤ 122 then Char.ofNat (c.toNat - 32) else c

/-- Models `str::to_lowercase`. -/
def strToLower (s : String) : String := String.mk (s.data.map charToLower)

/-- Models `str::to_uppercase`. -/
def strToUpper (s : String) : String := String.mk (s.data.map charToUpper)

/-- Models `str::trim`: strip leading and trailing whitespace. -/
def strTrim (s : String) : String :=
  String.mk (((s.data.dropWhile Char.isWhitespace).reverse.dropWhile
    Char.isWhitespace).reverse)

/-- Value of a list of decimal digit characters. -/
def digitsVal (ds : List Char) : Nat := ds.foldl (fun a c => a * 10 + (c.toNat - 48)) 0

/-- Models `token.parse::<f64>()` on the plain decimal literals this program's
tokens take: optional sign, integer digits, optional fractional digits.  The
exponent, infinity and NaN forms of the Rust float grammar are outside the
model; a token in one of those forms is treated as non-numeric. -/
def parseF64 (s : String) : Option ℚ :=
  let p : ℚ × List Char :=
    match s.data with
    | '-' :: rest => (-1, rest)
    | '+' :: rest => (1, rest)
    | cs => (1, cs)
  let intDigits := p.2.takeWhile Char.isDigit
  let rest := p.2.dropWhile Char.isDigit
  match rest with
  | [] => if intDigits = [] then none else some (p.1 * (digitsVal intDigits : ℚ))
  | '.' :: rest2 =>
    let fracDigits := rest2.takeWhile Char.isDigit
    let rest3 := rest2.dropWhile Char.isDigit
    if rest3 = [] ∧ (intDigits ≠ [] ∨ fracDigits ≠ []) then
      some (p.1 * ((digitsVal intDigits : ℚ) +
        (digitsVal fracDigits : ℚ) / ((10 : ℚ) ^ fracDigits.length)))
    else none
  | _ => none

/-- Least number of decimal digits needed after the point for a denominator,
searched up to 64 (every value arising in this program has a power-of-ten
denominator, far below that bound). -/
def decCount (den : Nat) : Option Nat :=
  (List.range 65).find? (fun k => 10 ^ k % den = 0)

/-- Models `f64::to_string` on values with a finite decimal expansion (the only
values this program produces at its call site): shortest plain decimal form,
no trailing zeros, integers without a decimal point. -/
def ratToString (q : ℚ) : String :=
  let sign := if q < 0 then "-" else ""
  let a : ℚ := |q|
  match decCount a.den with
  | none => sign ++ toString a.num ++ "/" ++ toString a.den
  | some 0 => sign ++ toString a.num
  | some (Nat.succ k0) =>
    let k := Nat.succ k0
    let scaled : Nat := (a.num * (10 : ℤ) ^ k).toNat / a.den
    let s := toString scaled
    let padded :=
      if s.length < k + 1 then String.mk (List.replicate (k + 1 - s.length) '0') ++ s
      else s
    sign ++ String.mk (padded.data.take (padded.length - k)) ++ "." ++
      String.mk (padded.data.drop (padded.length - k))

/-- The single-character operator set of `tokenize` in parser.rs. -/
def opChars : List Char := ['+', '-', '*', '/', '%', '^', '(', ')']

/-- First pass of `tokenize` (parser.rs): split on whitespace and on the
single-character operators, each operator its own token. -/
def tokenizeRaw (input : String) : List String :=
  let step := fun (acc : List String × String) (ch : Char) =>
    if ch ∈ opChars then
      ((if acc.2 ≠ "" then acc.1 ++ [strTrim acc.2] else acc.1) ++ [String.mk [ch]], "")
    else if ch = ' ' then
      (if acc.2 ≠ "" then acc.1 ++ [strTrim acc.2] else acc.1, "")
    else (acc.1, acc.2.push ch)
  let r := input.data.foldl step ([], "")
  if r.2 ≠ "" then r.1 ++ [strTrim r.2] else r.1

/-- Models `text_to_multiplier` (parser.rs). -/
def textToMultiplier (text : String) : ℚ :=
  match strToLower text with
  | "crore" | "crores" | "cr" => 10000000
  | "lakh" | "lakhs" | "lac" | "lacs" => 100000
  | "billion" | "billions" | "b" => 1000000000
  | "million" | "millions" | "m" => 1000000
  | "thousand" | "thousands" | "k" => 1000
  | _ => 1

/-- Post-processing pass of `tokenize` (parser.rs): a numeric token followed by
a magnitude word (multiplier different from 1) is collapsed into the single
numeric token of their product; both source tokens are consumed. -/
def postProcess : List String → List String
  | [] => []
  | [t] => [t]
  | t1 :: t2 :: rest =>
    match parseF64 t1 with
    | some num =>
      let m := textToMultiplier (strToLower t2)
      if m ≠ 1 then ratToString (num * m) :: postProcess rest
      else t1 :: postProcess (t2 :: rest)
    | none => t1 :: postProcess (t2 :: rest)

/-- Models `tokenize` (parser.rs): raw split, then the magnitude-word pass. -/
def tokenize (input : String) : List String := postProcess (tokenizeRaw input)

/-- Models `is_currency` (parser.rs). -/
def isCurrency (token : String) : Bool :=
  match strToUpper token with
  | "USD" | "EUR" | "INR" | "$" | "€" | "₹" => true
  | _ => false

/-- Models `normalize_currency` (parser.rs). -/
def normalizeCurrency (symbol : String) : String :=
  match strToUpper symbol with
  | "$" | "USD" => "USD"
  | "€" | "EUR" => "EUR"
  | "₹" | "INR" => "INR"
  | other => other

/-- Operators of the AST (parser.rs `Operator`). -/
inductive Operator where
  | add
  | subtract
  | multiply
  | divide
  | power
  | modulo
deriving DecidableEq, Repr

/-- Expression tree of the calculator (parser.rs `Expression`).  The source's
`CurrencyAnnotation` constructor is here named `currencyTag`; it carries the
annotated sub-expression and the currency code. -/
inductive Expression where
  | number (v : ℚ)
  | var (name : String)
  | binaryOp (op : Operator) (left right : Expression)
  | assignment (name : String) (expr : Expression)
  | currencyTag (value : Expression) (currency : String)
  | currencyConversion (source : Expression) (targetCurrency : String)
deriving DecidableEq, Repr

/-- Grammar level of the recursive-descent parser.  The Rust source uses six
mutually recursive constructs (`parse_conversion`, `parse_add_subtract` and its
while loop, `parse_mul_div` and its while loop, `parse_primary`); the model
folds them into one fuel-indexed function `parseAt`, one mode per construct,
so that the kernel can evaluate it. -/
inductive PMode where
  | conversion
  | addSub
  | addSubLoop (left : Expression)
  | mulDiv
  | mulDivLoop (left : Expression)
  | primary

/-- The recursive-descent parser over a token list with a cursor (parser.rs).
Each mode is a direct translation of the corresponding Rust function; the fuel
argument only bounds the recursion and is chosen large enough by callers. -/
def parseAt : Nat → PMode → List String → Nat → Except String (Expression × Nat)
  | 0, _, _, _ => .error "out of fuel"
  | Nat.succ f, mode, ts, i =>
    match mode with
    | .conversion =>
      match parseAt f .addSub ts i with
      | .error e => .error e
      | .ok (left, i1) =>
        if h : i1 < ts.length then
          if strToLower (ts.get ⟨i1, h⟩) = "to" then
            if h2 : i1 + 1 < ts.length then
              .ok (.currencyConversion left (normalizeCurrency (ts.get ⟨i1 + 1, h2⟩)),
                i1 + 2)
            else .error "Expected currency after 'to'"
          else .ok (left, i1)
        else .ok (left, i1)
    | .addSub =>
      match parseAt f .mulDiv ts i with
      | .error e => .error e
      | .ok (left, i1) => parseAt f (.addSubLoop left) ts i1
    | .addSubLoop left =>
      if h : i < ts.length then
        if ts.get ⟨i, h⟩ = "+" then
          match parseAt f .mulDiv ts (i + 1) with
          | .error e => .error e
          | .ok (right, i2) => parseAt f (.addSubLoop (.binaryOp .add left right)) ts i2
        else if ts.get ⟨i, h⟩ = "-" then
          match parseAt f .mulDiv ts (i + 1) with
          | .error e => .error e
          | .ok (right, i2) =>
            parseAt f (.addSubLoop (.binaryOp .subtract left right)) ts i2
        else .ok (left, i)
      else .ok (left, i)
    | .mulDiv =>
      match parseAt f .primary ts i with
      | .error e => .error e
      | .ok (left, i1) => parseAt f (.mulDivLoop left) ts i1
    | .mulDivLoop left =>
      if h : i < ts.length then
        if ts.get ⟨i, h⟩ = "*" then
          match parseAt f .primary ts (i + 1) with
          | .error e => .error e
          | .ok (right, i2) =>
            parseAt f (.mulDivLoop (.binaryOp .multiply left right)) ts i2
        else if ts.get ⟨i, h⟩ = "/" then
          match parseAt f .primary ts (i + 1) with
          | .error e => .error e
          | .ok (right, i2) =>
            parseAt f (.mulDivLoop (.binaryOp .divide left right)) ts i2
        else .ok (left, i)
      else .ok (left, i)
    | .primary =>
      if h : i < ts.length then
        if ts.get ⟨i, h⟩ = "(" then
          match parseAt f .conversion ts (i + 1) with
          | .error e => .error e
          | .ok (expr, i2) =>
            if h2 : i2 < ts.length then
              if ts.get ⟨i2, h2⟩ = ")" then .ok (expr, i2 + 1)
              else .error "Expected closing parenthesis"
            else .error "Expected closing parenthesis"
        else
          match parseF64 (ts.get ⟨i, h⟩) with
          | some num =>
            if h2 : i + 1 < ts.length then
              if isCurrency (ts.get ⟨i + 1, h2⟩) then
                .ok (.currencyTag (.number num) (normalizeCurrency (ts.get ⟨i + 1, h2⟩)),
                  i + 2)
              else .ok (.number num, i + 1)
            else .ok (.number num, i + 1)
          | none =>
            if (ts.get ⟨i, h⟩).data.all (fun c => c.isAlphanum || c = '_') then
              .ok (.var (ts.get ⟨i, h⟩), i + 1)
            else .error ("Cannot parse: " ++ ts.get ⟨i, h⟩)
      else .error "Expected expression"

/-- Models `Parser::parse_conversion`. -/
def parseConversion (fuel : Nat) (ts : List String) (i : Nat) :
    Except String (Expression × Nat) :=
  parseAt fuel .conversion ts i

/-- Models `Parser::parse_add_subtract`. -/
def parseAddSubtract (fuel : Nat) (ts : List String) (i : Nat) :
    Except String (Expression × Nat) :=
  parseAt fuel .addSub ts i

/-- Fuel bound used at parser entry: generous for any token list, since the
parser consumes at least one token for every few nested calls. -/
def parseFuel (ts : List String) : Nat := 16 * ts.length + 16

/-- Models `Parser::parse_expression`: tokenize, reject an empty token list,
parse from the lowest-precedence level, and return the expression while
discarding the final cursor (no check that every token was consumed). -/
def parseExpression (input : String) : Except String Expression :=
  let tokens := tokenize input
  if tokens = [] then .error "No tokens"
  else
    match parseConversion (parseFuel tokens) tokens 0 with
    | .ok (e, _) => .ok e
    | .error e => .error e

/-- Word character of the assignment regex (`\w`): letter, digit or underscore. -/
def isWordChar (c : Char) : Bool := c.isAlphanum || c = '_'

/-- Models the assignment regex of `Parser::parse`,
`^([a-zA-Z_]\w*)\s*=\s*(.+)$`, on an already-trimmed line: a leading
identifier, optional spaces, an equals sign, optional spaces, and a nonempty
remainder.  Returns the identifier and the remainder after the sign's spaces
(the regex is deterministic here: the trailing word characters of the
identifier can never backtrack into spaces or the equals sign). -/
def matchAssignment (s : String) : Option (String × String) :=
  match s.data with
  | [] => none
  | c :: rest =>
    if c.isAlpha || c = '_' then
      let identRest := rest.takeWhile isWordChar
      let afterIdent := rest.dropWhile isWordChar
      let afterSpaces := afterIdent.dropWhile Char.isWhitespace
      match afterSpaces with
      | '=' :: tail =>
        if tail = [] then none
        else some (String.mk (c :: identRest),
          String.mk (tail.dropWhile Char.isWhitespace))
      | _ => none
    else none

/-- Models `Parser::parse`: trim, reject blank input, try the assignment
pattern (recursing on its right-hand side), otherwise parse as an expression.
The fuel argument only bounds the assignment recursion; every recursive call
strips at least two characters, so the caller's bound is ample. -/
def parseLineAux : Nat → String → Except String Expression
  | 0, _ => .error "out of fuel"
  | Nat.succ f, input =>
    let trimmed := strTrim input
    if trimmed = "" then .error "Empty input"
    else
      match matchAssignment trimmed with
      | some (v, rest) =>
        match parseLineAux f rest with
        | .ok e => .ok (.assignment v e)
        | .error err => .error err
      | none => parseExpression trimmed

/-- Entry point of the parser, `Parser::parse`. -/
def parse (input : String) : Except String Expression :=
  parseLineAux (input.length + 1) input

/-- Models `CurrencyConverter::convert` (currency.rs): look up both rates,
failing with the unknown-currency message for the first absent code, then pass
through the reference currency: `(amount / from_rate) * to_rate`. -/
def convert (rates : Rates) (amount : ℚ) (fromCode toCode : String) :
    Except String ℚ :=
  match lookupTable rates fromCode with
  | none => .error ("Unknown currency: " ++ fromCode)
  | some fromRate =>
    match lookupTable rates toCode with
    | none => .error ("Unknown currency: " ++ toCode)
    | some toRate => .ok ((amount / fromRate) * toRate)

/-- The static fallback rate table of `CurrencyConverter::new` (currency.rs),
used when the live fetch fails; rates are relative to USD. -/
def fallbackRates : Rates := [("USD", 1), ("EUR", 0.92), ("INR", 83.50)]

/-- Models `Calculator::extract_currency` (calc.rs): a currency annotation
yields its code, a binary operation recurses into its left operand only, and
every other node kind fails with the missing-annotation message. -/
def extractCurrency : Expression → Except String String
  | .currencyTag _ currency => .ok currency
  | .binaryOp _ left _ => extractCurrency left
  | _ => .error "Expression does not have a currency annotation"

/-- Truncation toward zero; models the `f64::trunc` step of Rust's float
remainder. -/
def ratTruncate (q : ℚ) : ℤ := if q < 0 then Rat.ceil q else Rat.floor q

/-- Stands for `f64::powf` in the Divide-free corner the program can reach:
exact for integer exponents, and defaulting to 0 on non-integer exponents,
whose real-valued power is not rational.  The Power operator is unreachable
from the grammar and outside every claim. -/
def ratPowf (l r : ℚ) : ℚ := if r.den = 1 then l ^ r.num else 0

/-- Stands for the float remainder `l % r` (sign follows the dividend).  The
`r = 0` case is NaN in Rust and is mapped to 0 here; the Modulo operator is
unreachable from the grammar and outside every claim. -/
def ratFmod (l r : ℚ) : ℚ :=
  if r = 0 then 0 else l - r * ((ratTruncate (l / r) : ℤ) : ℚ)

/-- Models `Calculator::evaluate` (calc.rs).  The Rust method mutates
`self.variables`; the model threads the environment explicitly and always
returns it, so that mutations made before a failure persist exactly as they do
through Rust's early-return operator. -/
def evaluate (rates : Rates) : Expression → Env → (Except String ℚ) × Env
  | .number n, env => (.ok n, env)
  | .var name, env =>
    match lookupTable env name with
    | some v => (.ok v, env)
    | none => (.error ("Undefined variable: " ++ name), env)
  | .currencyTag value _, env => evaluate rates value env
  | .currencyConversion source targetCurrency, env =>
    match evaluate rates source env with
    | (.error e, env1) => (.error e, env1)
    | (.ok amount, env1) =>
      match extractCurrency source with
      | .error e => (.error e, env1)
      | .ok sourceCurrency => (convert rates amount sourceCurrency targetCurrency, env1)
  | .binaryOp op left right, env =>
    match evaluate rates left env with
    | (.error e, env1) => (.error e, env1)
    | (.ok leftVal, env1) =>
      match evaluate rates right env1 with
      | (.error e, env2) => (.error e, env2)
      | (.ok rightVal, env2) =>
        match op with
        | .add => (.ok (leftVal + rightVal), env2)
        | .subtract => (.ok (leftVal - rightVal), env2)
        | .multiply => (.ok (leftVal * rightVal), env2)
        | .divide =>
          if rightVal = 0 then (.error "Division by zero", env2)
          else (.ok (leftVal / rightVal), env2)
        | .power => (.ok (ratPowf leftVal rightVal), env2)
        | .modulo => (.ok (ratFmod leftVal rightVal), env2)
  | .assignment name expr, env =>
    match evaluate rates expr env with
    | (.ok value, env1) => (.ok value, (name, value) :: env1)
    | (.error err, env1) => (.error err, env1)

/-- Models `f64::round`: ties away from zero (equal to half-up on the
nonnegative inputs the formatter produces). -/
def roundTiesAway (q : ℚ) : ℤ :=
  if 0 ≤ q then Rat.floor (q + 1 / 2) else Rat.ceil (q - 1 / 2)

/-- Models `format_western_number` (calc.rs): iterate the digits from the
right, inserting a comma before every later group of three. -/
def formatWesternNumber (n : ℤ) : String :=
  let rev := (toString n).data.reverse
  let result := rev.enum.foldl
    (fun acc p =>
      if 0 < p.1 ∧ p.1 % 3 = 0 then acc ++ [','] ++ [p.2] else acc ++ [p.2]) []
  String.mk result.reverse

/-- Models `format_indian_number` (calc.rs): comma after the first three
digits from the right, then after every two. -/
def formatIndianNumber (n : ℤ) : String :=
  let rev := (toString n).data.reverse
  let result := rev.enum.foldl
    (fun acc p =>
      if p.1 = 3 then acc ++ [','] ++ [p.2]
      else if 3 < p.1 ∧ (p.1 - 3) % 2 = 0 then acc ++ [','] ++ [p.2]
      else acc ++ [p.2]) []
  String.mk result.reverse

/-- Models `format!("{:02}", n)` on the nonnegative values the formatter
produces: left-pad with zeros to at least two characters. -/
def pad2 (n : ℤ) : String :=
  let s := toString n
  if s.length < 2 then "0" ++ s else s

/-- Models `format_with_separator` (calc.rs): split the absolute value into
integer part and hundredths (rounded ties-away), group the integer digits by
style, and append the two-digit-formatted hundredths only when positive. -/
def formatWithSeparator (value : ℚ) (indianStyle : Bool) : String :=
  let absValue := |value|
  let integerPart : ℤ := Rat.floor absValue
  let decimalPart : ℤ := roundTiesAway ((absValue - ((Rat.floor absValue : ℤ) : ℚ)) * 100)
  let integerStr :=
    if indianStyle then formatIndianNumber integerPart else formatWesternNumber integerPart
  let sign := if value < 0 then "-" else ""
  if 0 < decimalPart then sign ++ integerStr ++ "." ++ pad2 decimalPart
  else sign ++ integerStr

/-- No Assignment node anywhere in the expression. -/
def noAssignments : Expression → Bool
  | .number _ => true
  | .var _ => true
  | .binaryOp _ left right => noAssignments left && noAssignments right
  | .assignment _ _ => false
  | .currencyTag value _ => noAssignments value
  | .currencyConversion source _ => noAssignments source

/-- No CurrencyAnnotation and no CurrencyConversion node anywhere in the
expression: the shape of trees parsed from lines without `to` or currency
tokens. -/
def noCurrencyNodes : Expression → Bool
  | .number _ => true
  | .var _ => true
  | .binaryOp _ left right => noCurrencyNodes left && noCurrencyNodes right
  | .assignment _ expr => noCurrencyNodes expr
  | .currencyTag _ _ => false
  | .currencyConversion _ _ => false

/-- Evaluation of an expression without Assignment nodes returns the
environment it was given: only the Assignment arm of `evaluate` extends the
environment. -/
theorem evaluate_preserves_env (rates : Rates) (e : Expression) :
    ∀ env : Env, noAssignments e = true → (evaluate rates e env).2 = env := by
  induction e with
  | number n => intro env _; rfl
  | var name =>
    intro env _
    simp only [evaluate]
    cases lookupTable env name <;> rfl
  | binaryOp op l r ihl ihr =>
    intro env h
    simp only [noAssignments, Bool.and_eq_true] at h
    simp only [evaluate]
    cases hl : evaluate rates l env with
    | mk lres env1 =>
      have e1 : env1 = env := by
        have := ihl env h.1
        rw [hl] at this
        exact this
      cases lres with
      | error msg => simpa using e1
      | ok lv =>
        cases hr : evaluate rates r env1 with
        | mk rres env2 =>
          have e2 : env2 = env := by
            have := ihr env1 h.2
            rw [hr] at this
            exact this.trans e1
          simp only [hr]
          cases rres with
          | error msg => simpa using e2
          | ok rv =>
            cases op with
            | divide =>
              by_cases hrv : rv = 0
              · simp only [if_pos hrv]
                simpa using e2
              · simp only [if_neg hrv]
                simpa using e2
            | add => simpa using e2
            | subtract => simpa using e2
            | multiply => simpa using e2
            | power => simpa using e2
            | modulo => simpa using e2
  | assignment name expr ih =>
    intro env h
    simp [noAssignments] at h
  | currencyTag value c ih =>
    intro env h
    simp only [noAssignments] at h
    simp only [evaluate]
    exact ih env h
  | currencyConversion source c ih =>
    intro env h
    simp only [noAssignments] at h
    simp only [evaluate]
    cases hs : evaluate rates source env with
    | mk sres env1 =>
      have e1 : env1 = env := by
        have := ih env h
        rw [hs] at this
        exact this
      cases sres with
      | error msg => simpa using e1
      | ok amount => cases extractCurrency source <;> simpa using e1

/-- C1: the parser gives multiplication and division higher precedence than
addition and subtraction, and parentheses override precedence: the line
2 + 3 * 4 parses with the product on the right of the sum and evaluates to 14,
and (2 + 3) * 4 parses with the sum on the left of the product and evaluates
to 20. -/
theorem C1_precedence :
    parse "2 + 3 * 4" =
      .ok (.binaryOp .add (.number 2) (.binaryOp .multiply (.number 3) (.number 4))) ∧
    (evaluate fallbackRates
      (.binaryOp .add (.number 2) (.binaryOp .multiply (.number 3) (.number 4))) []).1 =
      .ok 14 ∧
    parse "(2 + 3) * 4" =
      .ok (.binaryOp .multiply (.binaryOp .add (.number 2) (.number 3)) (.number 4)) ∧
    (evaluate fallbackRates
      (.binaryOp .multiply (.binaryOp .add (.number 2) (.number 3)) (.number 4)) []).1 =
      .ok 20 := by
  refine ⟨?_, ?_, ?_, ?_⟩ <;> with_unfolding_all rfl

/-- C2 (amended): on success of the inner expression the Assignment stores the
value under the name, overwriting any prior binding for lookup, and returns
it, so that reading the variable afterwards yields exactly that value; on
failure of the inner expression the Assignment itself stores nothing, and the
resulting environment is exactly the one the failed inner evaluation produced
(which may already contain bindings from nested assignments that succeeded
before the failure). -/
theorem C2_assignment (rates : Rates) (name : String) (inner : Expression)
    (env env' : Env) (v : ℚ) (msg : String) :
    (evaluate rates inner env = (.ok v, env') →
      evaluate rates (.assignment name inner) env = (.ok v, (name, v) :: env') ∧
      evaluate rates (.var name) ((name, v) :: env') = (.ok v, (name, v) :: env')) ∧
    (evaluate rates inner env = (.error msg, env') →
      evaluate rates (.assignment name inner) env = (.error msg, env')) := by
  constructor
  · intro h
    constructor
    · simp only [evaluate, h]
    · simp [evaluate, lookupTable]
  · intro h
    simp only [evaluate, h]

/-- Witness for C2_assignment at the assignment of 5 to x in an empty
environment. -/
theorem C2_assignment_witness :
    evaluate [] (.assignment "x" (.number 5)) [] = (.ok 5, [("x", 5)]) ∧
    evaluate [] (.var "x") [("x", 5)] = (.ok 5, [("x", 5)]) :=
  (C2_assignment [] "x" (.number 5) [] [] 5 "m").1 rfl

/-- C2 as frozen is false: when the inner expression of an Assignment fails,
the environment is not always left completely unchanged.  Here the inner
expression of the assignment to x first runs a nested assignment of 1 to y and
then fails on the undefined variable z; the assignment to x fails, yet the
final environment holds the binding of y. -/
theorem C2_counterexample :
    (evaluate fallbackRates
      (.binaryOp .add (.assignment "y" (.number 1)) (.var "z")) []).1 =
      .error "Undefined variable: z" ∧
    evaluate fallbackRates
      (.assignment "x" (.binaryOp .add (.assignment "y" (.number 1)) (.var "z"))) [] =
      (.error "Undefined variable: z", [("y", 1)]) ∧
    ([("y", (1 : ℚ))] : Env) ≠ ([] : Env) := by
  refine ⟨?_, ?_, ?_⟩
  · with_unfolding_all rfl
  · with_unfolding_all rfl
  · decide

/-- C3: after both operands of a Divide evaluate successfully, the division
fails with the division-by-zero error exactly when the right value equals 0,
and otherwise yields the quotient of the two values; in particular the line
10 / 0 parses to a Divide node whose evaluation fails with that error. -/
theorem C3_divisionByZero :
    (∀ (rates : Rates) (l r : Expression) (env env1 env2 : Env) (lv rv : ℚ),
      evaluate rates l env = (.ok lv, env1) →
      evaluate rates r env1 = (.ok rv, env2) →
      (((evaluate rates (.binaryOp .divide l r) env).1 = .error "Division by zero") ↔
        rv = 0) ∧
      (rv ≠ 0 →
        evaluate rates (.binaryOp .divide l r) env = (.ok (lv / rv), env2))) ∧
    parse "10 / 0" = .ok (.binaryOp .divide (.number 10) (.number 0)) ∧
    (evaluate fallbackRates (.binaryOp .divide (.number 10) (.number 0)) []).1 =
      .error "Division by zero" := by
  refine ⟨?_, by with_unfolding_all rfl, by with_unfolding_all rfl⟩
  intro rates l r env env1 env2 lv rv hl hr
  constructor
  · simp only [evaluate, hl, hr]
    by_cases hrv : rv = 0
    · simp [hrv]
    · simp [hrv]
  · intro hrv
    simp only [evaluate, hl, hr]
    simp [hrv]

/-- Witness for C3_divisionByZero: 10 / 4 succeeds with the quotient, 10 / 0
fails with the division-by-zero error. -/
theorem C3_divisionByZero_witness :
    evaluate [] (.binaryOp .divide (.number 10) (.number 4)) [] = (.ok (10 / 4), []) ∧
    (evaluate [] (.binaryOp .divide (.number 10) (.number 0)) []).1 =
      .error "Division by zero" := by
  constructor
  · exact (C3_divisionByZero.1 [] (.number 10) (.number 4) [] [] [] 10 4 rfl rfl).2
      (by decide)
  · exact (C3_divisionByZero.1 [] (.number 10) (.number 0) [] [] [] 10 0 rfl rfl).1.mpr rfl

/-- C4: the currency-extraction search returns the code of a currency
annotation, recurses into only the left operand of a binary operation (its
result does not depend on the right operand at all), and fails with the
missing-annotation error on every other node kind; in particular it extracts
USD from the annotated 50 plus plain 50, and fails on plain 50 plus annotated
50. -/
theorem C4_extractCurrency :
    (∀ (inner : Expression) (code : String),
      extractCurrency (.currencyTag inner code) = .ok code) ∧
    (∀ (op : Operator) (l r1 r2 : Expression),
      extractCurrency (.binaryOp op l r1) = extractCurrency l ∧
      extractCurrency (.binaryOp op l r1) = extractCurrency (.binaryOp op l r2)) ∧
    (∀ v : ℚ,
      extractCurrency (.number v) = .error "Expression does not have a currency annotation") ∧
    (∀ name : String,
      extractCurrency (.var name) = .error "Expression does not have a currency annotation") ∧
    (∀ (name : String) (e : Expression),
      extractCurrency (.assignment name e) =
        .error "Expression does not have a currency annotation") ∧
    (∀ (s : Expression) (c : String),
      extractCurrency (.currencyConversion s c) =
        .error "Expression does not have a currency annotation") ∧
    extractCurrency (.binaryOp .add (.currencyTag (.number 50) "USD") (.number 50)) =
      .ok "USD" ∧
    extractCurrency (.binaryOp .add (.number 50) (.currencyTag (.number 50) "USD")) =
      .error "Expression does not have a currency annotation" :=
  ⟨fun _ _ => rfl, fun _ _ _ _ => ⟨rfl, rfl⟩, fun _ => rfl, fun _ => rfl,
    fun _ _ => rfl, fun _ _ => rfl, rfl, rfl⟩

/-- C5: in the tokenizer's post-processing pass, a numeric token immediately
followed by a token whose lower-cased form is a recognized magnitude word
(multiplier different from 1) is replaced together with that word by the
single numeric token of their product; a pair that is not of this shape leaves
the first token untouched.  The magnitude table is the source's, matched
case-insensitively, and tokenizing the lines 1 b and 2 cr yields the single
numeric tokens of value 1e9 and 2e7. -/
theorem C5_magnitudeFolding :
    (∀ (t1 t2 : String) (rest : List String) (num : ℚ),
      parseF64 t1 = some num →
      textToMultiplier (strToLower t2) ≠ 1 →
      postProcess (t1 :: t2 :: rest) =
        ratToString (num * textToMultiplier (strToLower t2)) :: postProcess rest) ∧
    (∀ (t1 t2 : String) (rest : List String),
      parseF64 t1 = none →
      postProcess (t1 :: t2 :: rest) = t1 :: postProcess (t2 :: rest)) ∧
    (∀ (t1 t2 : String) (rest : List String) (num : ℚ),
      parseF64 t1 = some num →
      textToMultiplier (strToLower t2) = 1 →
      postProcess (t1 :: t2 :: rest) = t1 :: postProcess (t2 :: rest)) ∧
    (textToMultiplier "thousand" = 1000 ∧ textToMultiplier "thousands" = 1000 ∧
      textToMultiplier "K" = 1000 ∧
      textToMultiplier "million" = 1000000 ∧ textToMultiplier "millions" = 1000000 ∧
      textToMultiplier "M" = 1000000 ∧
      textToMultiplier "billion" = 1000000000 ∧ textToMultiplier "billions" = 1000000000 ∧
      textToMultiplier "B" = 1000000000 ∧
      textToMultiplier "lakh" = 100000 ∧ textToMultiplier "lakhs" = 100000 ∧
      textToMultiplier "lac" = 100000 ∧ textToMultiplier "lacs" = 100000 ∧
      textToMultiplier "crore" = 10000000 ∧ textToMultiplier "crores" = 10000000 ∧
      textToMultiplier "CR" = 10000000) ∧
    tokenize "1 b" = ["1000000000"] ∧ parseF64 "1000000000" = some 1000000000 ∧
    tokenize "2 cr" = ["20000000"] ∧ parseF64 "20000000" = some 20000000 := by
  refine ⟨?_, ?_, ?_,
    ⟨rfl, rfl, rfl, rfl, rfl, rfl, rfl, rfl, rfl, rfl, rfl, rfl, rfl, rfl, rfl, rfl⟩,
    by with_unfolding_all rfl, by with_unfolding_all rfl,
    by with_unfolding_all rfl, by with_unfolding_all rfl⟩
  · intro t1 t2 rest num h1 h2
    simp only [postProcess, h1]
    rw [if_pos h2]
  · intro t1 t2 rest h1
    simp only [postProcess, h1]
  · intro t1 t2 rest num h1 h2
    simp only [postProcess, h1, h2]
    simp

/-- Witness for C5_magnitudeFolding: the pair 3 K collapses into 3000 and the
following token is untouched. -/
theorem C5_magnitudeFolding_witness : postProcess ["3", "K", "x"] = ["3000", "x"] := by
  have h := C5_magnitudeFolding.1 "3" "K" ["x"] 3 (by with_unfolding_all rfl)
    (by decide)
  exact h.trans (by with_unfolding_all rfl)

/-- C6: the rate supplier's convert fails with the unknown-currency error
exactly when either code is absent from the table, and otherwise returns
(amount / rate of the source code) * rate of the target code, passing through
the table's single reference currency. -/
theorem C6_convert :
    ∀ (rates : Rates) (amount : ℚ) (src tgt : String),
    (lookupTable rates src = none →
      convert rates amount src tgt = .error ("Unknown currency: " ++ src)) ∧
    (∀ fr : ℚ, lookupTable rates src = some fr → lookupTable rates tgt = none →
      convert rates amount src tgt = .error ("Unknown currency: " ++ tgt)) ∧
    (∀ fr tr : ℚ, lookupTable rates src = some fr → lookupTable rates tgt = some tr →
      convert rates amount src tgt = .ok ((amount / fr) * tr)) ∧
    ((∃ v, convert rates amount src tgt = .ok v) ↔
      (lookupTable rates src).isSome ∧ (lookupTable rates tgt).isSome) := by
  intro rates amount src tgt
  refine ⟨?_, ?_, ?_, ?_⟩
  · intro h
    simp only [convert, h]
  · intro fr h1 h2
    simp only [convert, h1, h2]
  · intro fr tr h1 h2
    simp only [convert, h1, h2]
  · cases h1 : lookupTable rates src <;> cases h2 : lookupTable rates tgt <;>
      simp [convert, h1, h2]

/-- Witness for C6_convert on the fallback table: 100 USD converts to 8350 INR,
and an unknown target code fails with the unknown-currency error. -/
theorem C6_convert_witness :
    convert fallbackRates 100 "USD" "INR" = .ok 8350 ∧
    convert fallbackRates 1 "USD" "XYZ" = .error "Unknown currency: XYZ" := by
  constructor
  · have h := (C6_convert fallbackRates 100 "USD" "INR").2.2.1 1 (167 / 2)
      (by with_unfolding_all rfl) (by with_unfolding_all rfl)
    exact h.trans (by with_unfolding_all rfl)
  · exact (C6_convert fallbackRates 1 "USD" "XYZ").2.1 1
      (by with_unfolding_all rfl) (by with_unfolding_all rfl)

/-- C7 (amended): for expressions that contain no currency annotation or
conversion node (the trees of lines without the to keyword or currency
tokens) and also contain no assignment, a successful evaluation leaves the
environment unchanged, so evaluating the same expression again, starting from
the environment left by the first evaluation, yields the identical numeric
result. -/
theorem C7_pureEvaluation (rates : Rates) (e : Expression) (env env' : Env) (v : ℚ)
    (h1 : noAssignments e = true) (_h2 : noCurrencyNodes e = true)
    (h3 : evaluate rates e env = (.ok v, env')) :
    env' = env ∧ evaluate rates e env' = (.ok v, env') := by
  have hs : env' = env := by
    have hp := evaluate_preserves_env rates e env h1
    rw [h3] at hp
    exact hp
  subst hs
  exact ⟨rfl, h3⟩

/-- Witness for C7_pureEvaluation at the sum 2 + 3 in the empty environment. -/
theorem C7_pureEvaluation_witness :
    ([] : Env) = ([] : Env) ∧
    evaluate [] (.binaryOp .add (.number 2) (.number 3)) [] = (.ok 5, []) :=
  C7_pureEvaluation [] (.binaryOp .add (.number 2) (.number 3)) [] [] 5 rfl rfl
    (by with_unfolding_all rfl)

/-- C7 as frozen is false: the line x = x + 1 contains no to keyword and no
currency token and raises no division by zero, yet evaluated twice in
succession from an environment binding x to 1 it returns 2 and then 3. -/
theorem C7_counterexample :
    parse "x = x + 1" =
      .ok (.assignment "x" (.binaryOp .add (.var "x") (.number 1))) ∧
    noCurrencyNodes (.assignment "x" (.binaryOp .add (.var "x") (.number 1))) = true ∧
    evaluate fallbackRates (.assignment "x" (.binaryOp .add (.var "x") (.number 1)))
      [("x", 1)] = (.ok 2, [("x", 2), ("x", 1)]) ∧
    evaluate fallbackRates (.assignment "x" (.binaryOp .add (.var "x") (.number 1)))
      [("x", 2), ("x", 1)] = (.ok 3, [("x", 3), ("x", 2), ("x", 1)]) ∧
    (2 : ℚ) ≠ 3 := by
  refine ⟨?_, ?_, ?_, ?_, ?_⟩
  · with_unfolding_all rfl
  · rfl
  · with_unfolding_all rfl
  · with_unfolding_all rfl
  · decide

/-- C8: the claim that the rendered fractional suffix is always exactly two
digits fails on the code at the value 0.999, whose fractional part rounds to
100 hundredths; the formatter performs no carry and renders the three-digit
suffix 100. -/
theorem C8_fractionalSuffix :
    formatWithSeparator (999 / 1000) false = "0.100" ∧
    formatWithSeparator (1234 + 56 / 100) false = "1,234.56" := by
  constructor
  · with_unfolding_all rfl
  · with_unfolding_all rfl

/-- C9: when the token after the parsed additive level lower-cases to the
keyword to, the parser consumes it; with no further token it fails with the
distinct missing-currency message, and with a further token it normalizes that
token and wraps the left expression in a currency conversion.  The line
100 to exhibits the error, and the missing-currency message differs from every
other parser message. -/
theorem C9_conversionKeyword :
    (∀ (f : Nat) (ts : List String) (i i1 : Nat) (left : Expression)
      (h : i1 < ts.length),
      parseAddSubtract f ts i = .ok (left, i1) →
      strToLower (ts.get ⟨i1, h⟩) = "to" →
      (ts.length ≤ i1 + 1 →
        parseConversion (f + 1) ts i = .error "Expected currency after 'to'") ∧
      (∀ h2 : i1 + 1 < ts.length,
        parseConversion (f + 1) ts i =
          .ok (.currencyConversion left (normalizeCurrency (ts.get ⟨i1 + 1, h2⟩)),
            i1 + 2))) ∧
    (normalizeCurrency "$" = "USD" ∧ normalizeCurrency "€" = "EUR" ∧
      normalizeCurrency "₹" = "INR" ∧ normalizeCurrency "usd" = "USD" ∧
      normalizeCurrency "inr" = "INR") ∧
    parse "100 to" = .error "Expected currency after 'to'" ∧
    ("Expected currency after 'to'" ≠ "Expected expression" ∧
      "Expected currency after 'to'" ≠ "Expected closing parenthesis" ∧
      "Expected currency after 'to'" ≠ "Empty input" ∧
      "Expected currency after 'to'" ≠ "No tokens" ∧
      "Expected currency after 'to'" ≠ "Division by zero") := by
  refine ⟨?_, ⟨rfl, rfl, rfl, rfl, rfl⟩, by with_unfolding_all rfl,
    ⟨by decide, by decide, by decide, by decide, by decide⟩⟩
  intro f ts i i1 left h hpa hto
  simp only [parseAddSubtract] at hpa
  constructor
  · intro hlen
    simp only [parseConversion, parseAt, hpa]
    rw [dif_pos h]
    rw [if_pos hto]
    rw [dif_neg (by omega)]
  · intro h2
    simp only [parseConversion, parseAt, hpa]
    rw [dif_pos h]
    rw [if_pos hto]
    rw [dif_pos h2]

/-- Witness for C9_conversionKeyword at the token list 5 to usd. -/
theorem C9_conversionKeyword_witness :
    parseConversion (63 + 1) ["5", "to", "usd"] 0 =
      .ok (.currencyConversion (.number 5) "USD", 3) := by
  have h := (C9_conversionKeyword.1 63 ["5", "to", "usd"] 0 1 (.number 5)
    (by decide) (by with_unfolding_all rfl) (by with_unfolding_all rfl)).2
    (by decide)
  exact h.trans (by with_unfolding_all rfl)

/-- C10: the parser never requires that every token be consumed: whenever
parsing from the lowest-precedence level succeeds on the token list of a line,
the line parses to exactly that expression, whatever cursor position remains;
so 2 3 parses as the number 2, and 100 USD to INR / 4 parses as just the
currency conversion, with the division dropped. -/
theorem C10_trailingTokens :
    (∀ (input : String) (e : Expression) (j : Nat),
      tokenize input ≠ [] →
      parseConversion (parseFuel (tokenize input)) (tokenize input) 0 = .ok (e, j) →
      parseExpression input = .ok e) ∧
    parse "2 3" = .ok (.number 2) ∧
    parse "100 USD to INR / 4" =
      .ok (.currencyConversion (.currencyTag (.number 100) "USD") "INR") := by
  refine ⟨?_, by with_unfolding_all rfl, by with_unfolding_all rfl⟩
  intro input e j hne hp
  simp only [parseExpression]
  rw [if_neg hne]
  simp only [hp]

/-- Witness for C10_trailingTokens at the line 2 3, whose trailing token 3 is
discarded. -/
theorem C10_trailingTokens_witness : parseExpression "2 3" = .ok (.number 2) :=
  C10_trailingTokens.1 "2 3" (.number 2) 1 (by decide)
    (by with_unfolding_all rfl)

end Indumi
